import Mathlib

/-!
# Verification of the facet/field extension engine (`src/state/src/facet.ts`)

A shallow embedding of the extension-composition and slot-evaluation core of
the editor-state library: facet definitions, providers, state fields,
extension-tree flattening, configuration resolution, and the lazy memoized
per-snapshot slot evaluation protocol (`ensureAddr` / `getAddr`).

Runtime values are untyped in the source (`any`); they are embedded as the
universal value type `Val`.  JavaScript array writes that may grow the array
are embedded by `jsSet`, and the JavaScript coercion `undefined >> 1 == 0`
(relevant to `StateField.slot`) by `jsShr1`.
-/

/-- Universal runtime value (the source stores slot values as `any`). -/
inductive Val where
  | undefined
  | num (n : Int)
  | arr (vs : List Val)

/-- Structural (JavaScript `===`-style) equality test on values. -/
def Val.beq : Val → Val → Bool
  | .undefined, .undefined => true
  | .num a, .num b => a == b
  | .arr xs, .arr ys => go xs ys
  | _, _ => false
where go : List Val → List Val → Bool
  | [], [] => true
  | x :: xs, y :: ys => Val.beq x y && go xs ys
  | _, _ => false

instance : BEq Val := ⟨Val.beq⟩

def Val.beq_iff : (a b : Val) → (Val.beq a b = true ↔ a = b)
  | .undefined, .undefined => by simp [Val.beq]
  | .undefined, .num _ => by simp [Val.beq]
  | .undefined, .arr _ => by simp [Val.beq]
  | .num _, .undefined => by simp [Val.beq]
  | .num _, .num _ => by simp [Val.beq]
  | .num _, .arr _ => by simp [Val.beq]
  | .arr _, .undefined => by simp [Val.beq]
  | .arr _, .num _ => by simp [Val.beq]
  | .arr xs, .arr ys => by
      simp only [Val.beq]
      rw [go_iff xs ys]
      constructor
      · intro h; rw [h]
      · intro h; cases h; rfl
where go_iff : (xs ys : List Val) → (Val.beq.go xs ys = true ↔ xs = ys)
  | [], [] => by simp [Val.beq.go]
  | [], _ :: _ => by simp [Val.beq.go]
  | _ :: _, [] => by simp [Val.beq.go]
  | x :: xs, y :: ys => by
      simp only [Val.beq.go, Bool.and_eq_true]
      rw [Val.beq_iff x y, go_iff xs ys]
      simp

instance : DecidableEq Val := fun a b => decidable_of_iff _ (Val.beq_iff a b)

/-- JavaScript `l[i] = v` on an array: in-range writes update, out-of-range
writes grow the array, padding the holes with `pad` (holes read back as
`undefined`, which the padding value stands for). -/
def jsSet (pad : α) (l : List α) (i : Nat) (v : α) : List α :=
  if i < l.length then l.set i v
  else l ++ List.replicate (i - l.length) pad ++ [v]

/-- JavaScript `x >> 1` applied to an optional address: a present address is
halved, a missing one (`undefined`) coerces to `0` (`undefined >> 1 == 0`). -/
def jsShr1 : Option Nat → Nat
  | none => 0
  | some a => a / 2

/-- Lookup in an id-keyed address table (`{[id: number]: number}`). -/
def lookupA (tbl : List (Nat × Nat)) (id : Nat) : Option Nat :=
  (tbl.find? (fun p => p.1 == id)).map (fun p => p.2)

/-- `SlotStatus.Uninitialized` in the source. -/
def SlotStatus.Uninit : Nat := 0
def SlotStatus.Changed : Nat := 1
def SlotStatus.Computed : Nat := 2
def SlotStatus.Computing : Nat := 4

/-- The per-snapshot mutable data of an `EditorState`, together with the
parts of its `Configuration` that slot code reads through it
(`config.address`, `config.staticValues`). -/
structure SnapState where
  values : List Val
  status : List Nat
  address : List (Nat × Nat)
  staticValues : List Val
deriving DecidableEq

/-- The transition descriptor (`Transaction`): start snapshot plus the three
boolean signals slot code consumes. -/
structure TrModel where
  startState : SnapState
  docChanged : Bool
  selectionSet : Bool
  reconfigured : Bool
deriving DecidableEq

/-- `state.values[idx] = v`. -/
def writeValue (st : SnapState) (idx : Nat) (v : Val) : SnapState :=
  { st with values := jsSet Val.undefined st.values idx v }

/-- `state.status[idx] = s`. -/
def setStatus (st : SnapState) (idx : Nat) (s : Nat) : SnapState :=
  { st with status := jsSet 0 st.status idx s }

/-- `getAddr`: static addresses (odd) read `config.staticValues`, dynamic
addresses (even) read the snapshot's `values`. -/
def getAddr (st : SnapState) (addr : Nat) : Val :=
  if addr % 2 == 1 then st.staticValues.getD (addr / 2) .undefined
  else st.values.getD (addr / 2) .undefined

/-- `FacetData`: combine / compare functions and the static flag.  The
`default` field of the source is the derived `FacetData.default` below
(the constructor always sets it to `combine([])`). -/
structure FacetData where
  id : Nat
  combine : List Val → Val
  compareInput : Val → Val → Bool
  compare : Val → Val → Bool
  isStatic : Bool

/-- `this.default = combine([])` in the `FacetData` constructor. -/
def FacetData.default (f : FacetData) : Val := f.combine []

/-- `sameArray`: default output comparison when no `combine` is given. -/
def sameArray (a b : Val) : Bool :=
  match a, b with
  | .arr xs, .arr ys => xs == ys
  | x, y => x == y

/-- `defineFacet`: fills in the default combine (identity on the input
array), default input comparison (`===`), and default output comparison
(`sameArray` when no combine was supplied, `===` otherwise). -/
def defineFacet (fid : Nat) (combineC : Option (List Val → Val))
    (compareInputC : Option (Val → Val → Bool))
    (compareC : Option (Val → Val → Bool)) (staticC : Bool) : FacetData :=
  { id := fid
    combine := combineC.getD (fun vs => .arr vs)
    compareInput := compareInputC.getD (fun a b => a == b)
    compare := compareC.getD
      (match combineC with
       | none => sameArray
       | some _ => fun a b => a == b)
    isStatic := staticC }

/-- `const enum Provider` — the three provider kinds. -/
inductive Provider where
  | static
  | single
  | multi
deriving DecidableEq

/-- A provider's payload: a fixed value (Static) or a projection from the
snapshot (Single/Multi; a Multi projection returns a `Val.arr`). -/
inductive Payload where
  | val (v : Val)
  | fn (f : SnapState → Val)

/-- A dependency (`Slot` in the source): the symbolic `"doc"` and
`"selection"` dependencies, or a facet/field identified by its id. -/
inductive Dep where
  | doc
  | selection
  | slotId (id : Nat)
deriving DecidableEq

/-- `FacetProvider`. -/
structure FacetProvider where
  id : Nat
  dependencies : List Dep
  facet : FacetData
  type : Provider
  value : Payload

/-- `StateField` (its attached derived-facet extensions live on the
enclosing extension-tree node). -/
structure StateField where
  id : Nat
  createF : SnapState → Val
  updateF : Val → TrModel → SnapState → Val
  compareF : Val → Val → Bool

/-- The construction-time error of `computedFacet` / `computedFacetN`. -/
inductive BuildErr where
  | staticFacetComputed
deriving DecidableEq

/-- `computedFacet`: rejects a static target facet at construction time,
otherwise builds a Single provider. -/
def computedFacet (facet : FacetData) (depends : List Dep)
    (get : SnapState → Val) (pid : Nat) : Except BuildErr FacetProvider :=
  if facet.isStatic then .error .staticFacetComputed
  else .ok { id := pid, dependencies := depends, facet := facet,
             type := .single, value := .fn get }

/-- `computedFacetN`: rejects a static target facet at construction time,
otherwise builds a Multi provider. -/
def computedFacetN (facet : FacetData) (depends : List Dep)
    (get : SnapState → Val) (pid : Nat) : Except BuildErr FacetProvider :=
  if facet.isStatic then .error .staticFacetComputed
  else .ok { id := pid, dependencies := depends, facet := facet,
             type := .multi, value := .fn get }

/-- A resolved dynamic slot: the closure environment of the three update
function families (`StateField.slot`, `FacetProvider.dynamicSlot`,
`dynamicFacetSlot`). -/
inductive SlotDesc where
  | field (createF : SnapState → Val) (updateF : Val → TrModel → SnapState → Val)
      (compareF : Val → Val → Bool) (fieldId : Nat) (idx : Nat)
  | provider (getter : SnapState → Val) (compareInput : Val → Val → Bool)
      (idx : Nat) (depDoc : Bool) (depSel : Bool) (depAddrs : List Nat)
  | combineSlot (combineF : List Val → Val) (compareF : Val → Val → Bool)
      (facetId : Nat) (idx : Nat) (providerAddrs : List Nat)
      (providerTypes : List Provider) (dynamic : List Nat)

/-- Evaluation failures: the cyclic-dependency error of `ensureAddr`, a
JavaScript `TypeError` (iterating a non-array, calling a missing slot), and
fuel exhaustion of the embedding. -/
inductive EvalErr where
  | cyclic
  | typeError
  | outOfFuel
deriving DecidableEq

/-- The value-gathering loop of `dynamicFacetSlot`: group members in group
order, a Multi provider's produced sequence spliced element-wise. -/
def gatherValues (st : SnapState) : List Nat → List Provider → Except EvalErr (List Val)
  | [], _ => .ok []
  | a :: as, t :: ts => do
      let v := getAddr st a
      let rest ← gatherValues st as ts
      match t with
      | .multi =>
          match v with
          | .arr vs => .ok (vs ++ rest)
          | _ => .error .typeError
      | _ => .ok (v :: rest)
  | _ :: _, [] => .error .typeError

/-- The pending call of the mutually recursive evaluation protocol:
`ensureAddr`, running one slot's update function, the short-circuiting
dependency scan of a provider slot (`depAddrs.some(...)`), and the
non-short-circuiting member scan of a combine slot. -/
inductive Call where
  | ensure (st : SnapState) (addr : Nat)
  | runSlot (st : SnapState) (slot : SlotDesc)
  | deps (st : SnapState) (addrs : List Nat)
  | allChanged (st : SnapState) (addrs : List Nat) (acc : Bool)

/-- The slot evaluation protocol, fuel-indexed.  `slots` is
`state.config.dynamicSlots`, `applying` is `state.applying` (the transition
being applied, absent on first build).  Each case is a direct transcription
of the corresponding source function; the returned `Nat` is the slot status
(for `.deps`/`.allChanged`, `1` iff some dependency reported changed). -/
def eval (slots : List SlotDesc) (applying : Option TrModel) :
    Nat → Call → Except EvalErr (SnapState × Nat)
  | 0, _ => .error .outOfFuel
  | fuel + 1, .ensure st addr =>
      -- `ensureAddr`
      if addr % 2 == 1 then .ok (st, SlotStatus.Computed)
      else
        let idx := addr / 2
        let status := st.status.getD idx 0
        if status == SlotStatus.Computing then .error .cyclic
        else if status &&& SlotStatus.Computed != 0 then .ok (st, status)
        else
          match slots.get? idx with
          | none => .error .typeError
          | some slot => do
              let r ← eval slots applying fuel
                (.runSlot (setStatus st idx SlotStatus.Computing) slot)
              let result := SlotStatus.Computed ||| r.2
              .ok (setStatus r.1 idx result, result)
  | fuel + 1, .runSlot st slot =>
      match slot with
      | .field createF updateF compareF fieldId idx =>
          (match applying with
           | none => .ok (writeValue st idx (createF st), SlotStatus.Changed)
           | some tr =>
              -- `oldIdx = tr.reconfigured ? tr.startState.config.address[this.id] >> 1 : idx`
              -- A missing old address yields 0, not null (`undefined >> 1 == 0`),
              -- so with a transition present the create branch is never taken.
              let oldIdx := if tr.reconfigured
                then jsShr1 (lookupA tr.startState.address fieldId) else idx
              let oldVal := tr.startState.values.getD oldIdx .undefined
              let value := updateF oldVal tr st
              if compareF oldVal value then .ok (st, 0)
              else .ok (writeValue st idx value, SlotStatus.Changed))
      | .provider getter cmp idx depDoc depSel depAddrs =>
          (match applying with
           | none => .ok (writeValue st idx (getter st), SlotStatus.Changed)
           | some tr =>
              if tr.reconfigured then
                .ok (writeValue st idx (getter st), SlotStatus.Changed)
              else do
                let sym := (depDoc && tr.docChanged)
                  || (depSel && (tr.docChanged || tr.selectionSet))
                let r ← if sym then pure (st, 1)
                  else eval slots applying fuel (.deps st depAddrs)
                if r.2 == 0 then .ok (r.1, 0)
                else
                  let newVal := getter r.1
                  if cmp newVal (tr.startState.values.getD idx .undefined) then .ok (r.1, 0)
                  else .ok (writeValue r.1 idx newVal, SlotStatus.Changed))
      | .combineSlot combineF compareF facetId idx provAddrs provTypes dyn => do
          let oldAddr : Option Nat :=
            match applying with
            | none => none
            | some tr =>
                if tr.reconfigured then lookupA tr.startState.address facetId
                else some (idx * 2)
          let r ← eval slots applying fuel (.allChanged st dyn false)
          if oldAddr.isNone || r.2 == 1 then
            let values ← gatherValues r.1 provAddrs provTypes
            let newVal := combineF values
            match applying, oldAddr with
            | some tr, some oa =>
                if compareF newVal (getAddr tr.startState oa) then .ok (r.1, 0)
                else .ok (writeValue r.1 idx newVal, SlotStatus.Changed)
            | _, _ => .ok (writeValue r.1 idx newVal, SlotStatus.Changed)
          else .ok (r.1, 0)
  | fuel + 1, .deps st addrs =>
      match addrs with
      | [] => .ok (st, 0)
      | a :: rest => do
          let r ← eval slots applying fuel (.ensure st a)
          if r.2 &&& SlotStatus.Changed > 0 then .ok (r.1, 1)
          else eval slots applying fuel (.deps r.1 rest)
  | fuel + 1, .allChanged st addrs acc =>
      match addrs with
      | [] => .ok (st, if acc then 1 else 0)
      | a :: rest => do
          let r ← eval slots applying fuel (.ensure st a)
          eval slots applying fuel
            (.allChanged r.1 rest (acc || (r.2 &&& SlotStatus.Changed != 0)))

/-- `ensureAddr(state, addr)`. -/
def ensureAddr (slots : List SlotDesc) (applying : Option TrModel)
    (fuel : Nat) (st : SnapState) (addr : Nat) : Except EvalErr (SnapState × Nat) :=
  eval slots applying fuel (.ensure st addr)

/-- `StateField.slot(addresses)`: resolves the field's own index and closes
over the field's functions. -/
def StateField.slot (f : StateField) (addresses : List (Nat × Nat)) : SlotDesc :=
  .field f.createF f.updateF f.compareF f.id (jsShr1 (lookupA addresses f.id))

/-- The static payload of a provider (`p.value` read as a plain value; the
public constructors only build Static providers with a plain value). -/
def Payload.asVal : Payload → Val
  | .val v => v
  | .fn _ => .undefined

/-- `FacetProvider.dynamicSlot(addresses)`: resolves the provider's index
and scans its dependency list once — symbolic dependencies become the two
flags, addressable dependencies keep only their dynamic (even) addresses.
A missing dependency address is kept as `0` (JS pushes `undefined`, and
`ensureAddr`/`getAddr` treat `undefined` exactly like address `0`). -/
def FacetProvider.dynamicSlot (p : FacetProvider) (addresses : List (Nat × Nat)) : SlotDesc :=
  let getter : SnapState → Val :=
    match p.value with
    | .fn f => f
    | .val v => fun _ => v
  let idx := jsShr1 (lookupA addresses p.id)
  let flags := p.dependencies.foldl (fun (acc : Bool × Bool × List Nat) dep =>
      match dep with
      | .doc => (true, acc.2.1, acc.2.2)
      | .selection => (acc.1, true, acc.2.2)
      | .slotId id =>
          match lookupA addresses id with
          | some a => if a % 2 == 0 then (acc.1, acc.2.1, acc.2.2 ++ [a]) else acc
          | none => (acc.1, acc.2.1, acc.2.2 ++ [0]))
    (false, false, [])
  .provider getter p.facet.compareInput idx flags.1 flags.2.1 flags.2.2

/-- `dynamicFacetSlot(addresses, facet, providers)`: the combine slot of a
non-all-static facet group — member addresses and kinds in group order,
plus the filtered list of dynamic member addresses. -/
def dynamicFacetSlot (addresses : List (Nat × Nat)) (facet : FacetData)
    (providers : List FacetProvider) : SlotDesc :=
  let providerAddrs := providers.map (fun p => (lookupA addresses p.id).getD 0)
  let providerTypes := providers.map (fun p => p.type)
  let dynamic := providerAddrs.filter (fun a => a % 2 == 0)
  .combineSlot facet.combine facet.compare facet.id
    (jsShr1 (lookupA addresses facet.id)) providerAddrs providerTypes dynamic

/-- The extension tree.  Every node carries an identity `tag` standing for
the JavaScript object identity that the flattening pass deduplicates on
(`seen: Set<Extension>`); a field node carries its attached derived-facet
extension array (`StateField.facets`). -/
inductive Extension where
  | provider (tag : Nat) (p : FacetProvider)
  | field (tag : Nat) (f : StateField) (facets : Extension)
  | seq (tag : Nat) (es : List Extension)
  | prec (tag : Nat) (val : Nat) (e : Extension)

/-- The identity tag of an extension node. -/
def Extension.tag : Extension → Nat
  | .provider t _ => t
  | .field t _ _ => t
  | .seq t _ => t
  | .prec t _ _ => t

/-- All identity tags occurring in an extension tree. -/
def Extension.tags : Extension → List Nat
  | .provider t _ => [t]
  | .field t _ facets => t :: facets.tags
  | .seq t es => t :: go es
  | .prec t _ e => t :: e.tags
where go : List Extension → List Nat
  | [] => []
  | e :: es => e.tags ++ go es

/-- The four `Precedence` levels (`val` fields). -/
def Precedence.Fallback : Nat := 3
def Precedence.Default : Nat := 2
def Precedence.Extend : Nat := 1
def Precedence.Override : Nat := 0

/-- A flattened contribution: `FacetProvider | StateField`. -/
inductive Leaf where
  | provider (p : FacetProvider)
  | field (f : StateField)

def Leaf.fieldOf : Leaf → Option StateField
  | .field f => some f
  | .provider _ => none

def Leaf.providerOf : Leaf → Option FacetProvider
  | .provider p => some p
  | .field _ => none

/-- The four precedence buckets of the flattening pass (`result` in
`flatten`). -/
structure Buckets where
  b0 : List Leaf
  b1 : List Leaf
  b2 : List Leaf
  b3 : List Leaf

/-- `result[prec].push(leaf)` (a precedence outside 0..3 cannot be built by
`Precedence`; it is embedded as a no-op). -/
def pushBucket (res : Buckets) (prc : Nat) (leaf : Leaf) : Buckets :=
  match prc with
  | 0 => { res with b0 := res.b0 ++ [leaf] }
  | 1 => { res with b1 := res.b1 ++ [leaf] }
  | 2 => { res with b2 := res.b2 ++ [leaf] }
  | 3 => { res with b3 := res.b3 ++ [leaf] }
  | _ + 4 => res

/-- The recursive `inner` walk of `flatten`: identity dedup, sequence
expansion, precedence rebinding, leaves pushed into the ambient-tier
bucket, and a field's attached extensions visited after the field. -/
def flattenInner (e : Extension) (prc : Nat) (seen : Nat → Bool) (res : Buckets) :
    (Nat → Bool) × Buckets :=
  if seen e.tag then (seen, res)
  else
    let seen1 := fun t => t == e.tag || seen t
    match e with
    | .seq _ es => go es prc seen1 res
    | .prec _ p inner => flattenInner inner p seen1 res
    | .provider _ p => (seen1, pushBucket res prc (.provider p))
    | .field _ f facets => flattenInner facets prc seen1 (pushBucket res prc (.field f))
where go : List Extension → Nat → (Nat → Bool) → Buckets → (Nat → Bool) × Buckets
  | [], _, seen, res => (seen, res)
  | e :: es, prc, seen, res =>
      let r := flattenInner e prc seen res
      go es prc r.1 r.2

/-- `flatten(extension)`: walk from the ambient `Default` tier, then
concatenate the buckets Override-first. -/
def flatten (e : Extension) : List Leaf :=
  let r := (flattenInner e Precedence.Default (fun _ => false) ⟨[], [], [], []⟩).2
  r.b0 ++ r.b1 ++ r.b2 ++ r.b3

/-- Modelled from the spec (section 4.1), for comparison with `flatten`:
the depth-first pre-order enumeration of deduplicated leaves, each paired
with its effective precedence tier (the innermost enclosing tag, ambient
otherwise). -/
def specLeavesPreorder (e : Extension) (prc : Nat) (seen : Nat → Bool) :
    (Nat → Bool) × List (Leaf × Nat) :=
  if seen e.tag then (seen, [])
  else
    let seen1 := fun t => t == e.tag || seen t
    match e with
    | .seq _ es => go es prc seen1
    | .prec _ p inner => specLeavesPreorder inner p seen1
    | .provider _ p => (seen1, [(.provider p, prc)])
    | .field _ f facets =>
        let r := specLeavesPreorder facets prc seen1
        (r.1, (.field f, prc) :: r.2)
where go : List Extension → Nat → (Nat → Bool) → (Nat → Bool) × List (Leaf × Nat)
  | [], _, seen => (seen, [])
  | e :: es, prc, seen =>
      let r := specLeavesPreorder e prc seen
      let r2 := go es prc r.1
      (r2.1, r.2 ++ r2.2)

/-- The leaves of one precedence tier, in enumeration order. -/
def tier (l : List (Leaf × Nat)) (p : Nat) : List Leaf :=
  (l.filter (fun x => x.2 == p)).map (fun x => x.1)

/-- A dynamic slot before the final address table exists (the
`(address) => DynamicSlot` closures pushed by `Configuration.resolve`). -/
inductive SlotBuilder where
  | ofField (f : StateField)
  | ofProvider (p : FacetProvider)
  | ofCombine (facet : FacetData) (providers : List FacetProvider)

/-- Applying the stored closures to the completed address table
(`dynamicSlots.map(f => f(address))`). -/
def applyBuilder (address : List (Nat × Nat)) : SlotBuilder → SlotDesc
  | .ofField f => f.slot address
  | .ofProvider p => p.dynamicSlot address
  | .ofCombine facet providers => dynamicFacetSlot address facet providers

/-- The accumulator of `Configuration.resolve`: the address table, the
static value array, and the dynamic slots built so far. -/
structure ResolveAcc where
  address : List (Nat × Nat)
  staticValues : List Val
  builders : List SlotBuilder

/-- One facet group of `Configuration.resolve`: all providers Static →
combine immediately into a static slot, preferring the previous snapshot's
value object when `compare` holds; otherwise one slot per computed
provider, one static value per Static provider, and a final combine slot
whose address becomes the facet's. -/
def resolveGroup (oldState : Option SnapState) (acc : ResolveAcc)
    (providers : List FacetProvider) : ResolveAcc :=
  match providers with
  | [] => acc
  | p0 :: _ =>
    let facet := p0.facet
    if providers.all (fun p => p.type == Provider.static) then
      let newVal := facet.combine (providers.map (fun p => p.value.asVal))
      let stored :=
        match oldState with
        | some os =>
            match lookupA os.address facet.id with
            | some oldAddr =>
                let oldVal := getAddr os oldAddr
                if facet.compare newVal oldVal then oldVal else newVal
            | none => newVal
        | none => newVal
      { acc with
          address := acc.address ++ [(facet.id, acc.staticValues.length * 2 + 1)],
          staticValues := acc.staticValues ++ [stored] }
    else
      let acc2 := providers.foldl (fun a p =>
        if p.type == Provider.static then
          { a with
              address := a.address ++ [(p.id, a.staticValues.length * 2 + 1)],
              staticValues := a.staticValues ++ [p.value.asVal] }
        else
          { a with
              address := a.address ++ [(p.id, a.builders.length * 2)],
              builders := a.builders ++ [.ofProvider p] }) acc
      { acc2 with
          address := acc2.address ++ [(facet.id, acc2.builders.length * 2)],
          builders := acc2.builders ++ [.ofCombine facet providers] }

/-- The resolved `Configuration`. -/
structure Configuration where
  dynamicSlots : List SlotDesc
  address : List (Nat × Nat)
  staticValues : List Val
  statusTemplate : List Nat

/-- The `Configuration` constructor: its `while` loop pushes one
`Uninitialized` cell per **static value**
(`while (this.statusTemplate.length < staticValues.length)`). -/
def mkConfiguration (dynamicSlots : List SlotDesc) (address : List (Nat × Nat))
    (staticValues : List Val) : Configuration :=
  { dynamicSlots := dynamicSlots, address := address, staticValues := staticValues,
    statusTemplate := List.replicate staticValues.length SlotStatus.Uninit }

/-- First-occurrence deduplication of the facet-id key set. -/
def dedupIds (l : List Nat) : List Nat :=
  l.foldl (fun acc x => if acc.contains x then acc else acc ++ [x]) []

def insertAsc (n : Nat) : List Nat → List Nat
  | [] => [n]
  | m :: ms => if n ≤ m then n :: m :: ms else m :: insertAsc n ms

/-- Ascending order: `for (let id in facets)` iterates JS object integer
keys in ascending numeric order. -/
def sortAsc (l : List Nat) : List Nat := l.foldr insertAsc []

/-- `Configuration.resolve(extension, oldState?)`. -/
def Configuration.resolve (ext : Extension) (oldState : Option SnapState) : Configuration :=
  let leaves := flatten ext
  let fields := leaves.filterMap Leaf.fieldOf
  let provs := leaves.filterMap Leaf.providerOf
  let acc0 : ResolveAcc := fields.foldl (fun a f =>
      { a with
          address := a.address ++ [(f.id, a.builders.length * 2)],
          builders := a.builders ++ [.ofField f] })
    ⟨[], [], []⟩
  let ids := sortAsc (dedupIds (provs.map (fun p => p.facet.id)))
  let acc := ids.foldl (fun a id =>
      resolveGroup oldState a (provs.filter (fun p => p.facet.id == id))) acc0
  mkConfiguration (acc.builders.map (applyBuilder acc.address)) acc.address acc.staticValues

/-- `Configuration.staticFacet(facet)`: the facet's default when the
address table has no entry, otherwise the stored static value. -/
def Configuration.staticFacet (c : Configuration) (facet : FacetData) : Val :=
  match lookupA c.address facet.id with
  | none => facet.default
  | some addr => c.staticValues.getD (addr / 2) .undefined

/-! ## Concrete fixtures -/

/-- A field whose `create` returns `1` and whose `update` wraps the prior
value, making the two branches observably distinct. -/
def c1Field : StateField :=
  ⟨7, fun _ => .num 1, fun old _ _ => .arr [old], fun a b => a == b⟩

/-- The start snapshot of a reconfiguring transition whose configuration has
NO address for field 7 (the field is newly introduced). -/
def c1Start : SnapState := ⟨[.num 99], [], [], []⟩

/-- A reconfiguring transition from `c1Start`. -/
def c1Tr : TrModel := ⟨c1Start, false, false, true⟩

/-- The new snapshot under construction (field 7 lives at dynamic index 0). -/
def c1New : SnapState := ⟨[.undefined], [0], [(7, 0)], []⟩

/-- A dynamic slot with no observable behaviour, for sizing arguments. -/
def dummySlot : SlotDesc :=
  .field (fun _ => .undefined) (fun v _ _ => v) (fun _ _ => false) 0 0

/-- A snapshot whose only dynamic slot is currently `Computing`. -/
def c5St : SnapState := ⟨[.undefined], [SlotStatus.Computing], [], []⟩

/-- The keep-last combine of the `Tabsize` scenario (default `4`). -/
def keepLast (vs : List Val) : Val := vs.getLastD (.num 4)

/-- The static `Tabsize` facet of the spec scenario. -/
def tabFacet : FacetData := defineFacet 5 (some keepLast) none none true

/-- A non-static facet with the same combine. -/
def dynFacet : FacetData := defineFacet 6 (some keepLast) none none false

def c9get : SnapState → Val := fun _ => .num 0

/-- A configuration holding one static value, addressed by facet id 5. -/
def c10Conf : Configuration := mkConfiguration [] [(5, 1)] [.num 8]

/-- A snapshot whose two dynamic slots hold a Multi result `[1, 2]` and a
Single result `3`. -/
def gatherSt : SnapState := ⟨[.arr [.num 1, .num 2], .num 3], [], [], []⟩

/-- A non-reconfiguring transition with no fired flags. -/
def plainTr : TrModel := ⟨⟨[], [], [], []⟩, false, false, false⟩

/-- A reconfiguring transition. -/
def recTr : TrModel := ⟨⟨[], [], [], []⟩, false, false, true⟩

def g5 : SnapState → Val := fun _ => .num 5

def cmpEq : Val → Val → Bool := fun a b => a == b

/-- `Tabsize(2)`: a Static provider built by calling the facet. -/
def tabProv2 : FacetProvider := ⟨1, [], tabFacet, .static, .val (.num 2)⟩

/-- `Tabsize(8)`. -/
def tabProv8 : FacetProvider := ⟨2, [], tabFacet, .static, .val (.num 8)⟩

/-- The extension `[Tabsize(2), Tabsize(8)]` at equal (default) precedence. -/
def tabExt : Extension := .seq 100 [.provider 101 tabProv2, .provider 102 tabProv8]

/-- An old snapshot whose configuration resolved `Tabsize` to the static
value `8` at address `1`. -/
def tabOldState : SnapState := ⟨[], [], [(5, 1)], [.num 8]⟩

def provA : FacetProvider := ⟨11, [], dynFacet, .static, .val (.num 1)⟩

def provB : FacetProvider := ⟨12, [], dynFacet, .static, .val (.num 2)⟩

def provC : FacetProvider := ⟨13, [], dynFacet, .static, .val (.num 3)⟩

/-- Leaves L1 tagged Fallback, L2 tagged Override, L3 untagged, in that
source order. -/
def c7Ext : Extension :=
  .seq 90 [.prec 91 Precedence.Fallback (.provider 93 provA),
           .prec 92 Precedence.Override (.provider 94 provB),
           .provider 95 provC]

/-- One extension instance (used twice in the C8 witness). -/
def c8E : Extension := .provider 50 tabProv2

/-- A second, distinct extension instance. -/
def c8F : Extension := .provider 51 tabProv8

/-! ## Claim theorems -/

/-- Claim C1 (code bug): on a reconfiguring transition where the old
Configuration has no address for the field, the field slot is claimed to
call `create` and never consult a prior value — but the source computes
`tr.startState.config.address[this.id] >> 1` before any null check, and
`undefined >> 1` is `0`, so it calls `update` with the start snapshot's
value at index 0 (here the unrelated `99`); `create` (which would store
`1`, as the contrasting first-build run shows) is never called. -/
theorem c1_field_slot_new_field_calls_update :
    eval [] (some c1Tr) 1 (.runSlot c1New (c1Field.slot [(7, 0)])) =
      .ok (⟨[.arr [.num 99]], [0], [(7, 0)], []⟩, SlotStatus.Changed)
    ∧ eval [] none 1 (.runSlot c1New (c1Field.slot [(7, 0)])) =
      .ok (⟨[.num 1], [0], [(7, 0)], []⟩, SlotStatus.Changed) := by
  constructor <;> rfl

/-- Claim C2 (code bug): `statusTemplate` is claimed to hold one
`Uninitialized` cell per dynamic slot, but the constructor's loop runs
`while (statusTemplate.length < staticValues.length)`: a configuration with
one dynamic slot and no static values gets an empty template, and one with
no dynamic slots and one static value gets a one-cell template. -/
theorem c2_statusTemplate_sized_by_staticValues :
    (mkConfiguration [dummySlot] [] []).statusTemplate = []
    ∧ (mkConfiguration [] [] [.num 1]).statusTemplate = [SlotStatus.Uninit] := by
  constructor <;> rfl

/-- Claim C5: `ensureAddr` returns `Computed` at once for a static (odd)
address; raises the cyclic-dependency error immediately when the cell is
`Computing` (reentry during the slot's own evaluation); returns the cached
status without running any slot when the `Computed` bit is set; and on an
`Uninitialized` cell marks it `Computing`, runs the slot's update function,
then stores and returns `Computed` or-ed with the reported change flag. -/
theorem c5_ensureAddr_protocol (slots : List SlotDesc) (applying : Option TrModel)
    (st : SnapState) (fuel addr : Nat) :
    (addr % 2 = 1 →
      ensureAddr slots applying (fuel + 1) st addr = .ok (st, SlotStatus.Computed))
    ∧ (addr % 2 = 0 → st.status.getD (addr / 2) 0 = SlotStatus.Computing →
      ensureAddr slots applying (fuel + 1) st addr = .error .cyclic)
    ∧ (addr % 2 = 0 → st.status.getD (addr / 2) 0 &&& SlotStatus.Computed ≠ 0 →
      ensureAddr slots applying (fuel + 1) st addr = .ok (st, st.status.getD (addr / 2) 0))
    ∧ (∀ sl st2 ch, addr % 2 = 0 → st.status.getD (addr / 2) 0 = SlotStatus.Uninit →
      slots.get? (addr / 2) = some sl →
      eval slots applying fuel (.runSlot (setStatus st (addr / 2) SlotStatus.Computing) sl) =
        .ok (st2, ch) →
      ensureAddr slots applying (fuel + 1) st addr =
        .ok (setStatus st2 (addr / 2) (SlotStatus.Computed ||| ch),
             SlotStatus.Computed ||| ch)) := by
  simp only [ensureAddr]
  refine ⟨fun h1 => ?_, fun h0 hc => ?_, fun h0 hs => ?_, fun sl st2 ch h0 hu hget hrun => ?_⟩
  · simp [eval, h1]
  · rw [List.getD_eq_getElem?_getD] at hc
    simp [eval, h0, hc, SlotStatus.Computing]
  · rw [List.getD_eq_getElem?_getD] at hs
    simp only [SlotStatus.Computed] at hs
    have hne : st.status[addr / 2]?.getD 0 ≠ 4 := by
      intro heq
      rw [heq] at hs
      exact hs rfl
    simp [eval, h0, SlotStatus.Computing, SlotStatus.Computed, hne, hs]
  · rw [List.getD_eq_getElem?_getD] at hu
    simp only [SlotStatus.Uninit] at hu
    rw [List.get?_eq_getElem?] at hget
    simp only [SlotStatus.Computing] at hrun
    simp [eval, h0, hu, SlotStatus.Computing, SlotStatus.Computed, hget, hrun]
    rfl

/-- Claim C5 witness: reentry on a `Computing` cell raises the cyclic error. -/
theorem c5_witness : ensureAddr [] none 1 c5St 0 = .error .cyclic :=
  (c5_ensureAddr_protocol [] none c5St 0 0).2.1 rfl rfl

/-- Claim C9: building a computed Single (`computedFacet`) or Multi
(`computedFacetN`) provider against a static facet fails at construction
time with the static-facet error; against a non-static facet both
constructors succeed and build the corresponding provider. -/
theorem c9_computed_provider_static_check (facet : FacetData) (deps : List Dep)
    (g : SnapState → Val) (pid : Nat) :
    (facet.isStatic = true →
      computedFacet facet deps g pid = .error .staticFacetComputed
      ∧ computedFacetN facet deps g pid = .error .staticFacetComputed)
    ∧ (facet.isStatic = false →
      computedFacet facet deps g pid = .ok ⟨pid, deps, facet, .single, .fn g⟩
      ∧ computedFacetN facet deps g pid = .ok ⟨pid, deps, facet, .multi, .fn g⟩) := by
  constructor <;> intro h <;> simp [computedFacet, computedFacetN, h]

/-- Claim C9 witness: the static `Tabsize` facet is rejected, the non-static
variant accepted. -/
theorem c9_witness :
    computedFacet tabFacet [] c9get 1 = .error .staticFacetComputed
    ∧ computedFacetN dynFacet [] c9get 2 = .ok ⟨2, [], dynFacet, .multi, .fn c9get⟩ :=
  ⟨((c9_computed_provider_static_check tabFacet [] c9get 1).1 rfl).1,
   ((c9_computed_provider_static_check dynFacet [] c9get 2).2 rfl).2⟩

/-- Claim C10: `staticFacet` returns the facet's default — `combine`
applied to the empty list — when the configuration's address table has no
entry for the facet's id, and the stored static value at the address
otherwise. -/
theorem c10_staticFacet_default_or_stored (c : Configuration) (facet : FacetData) :
    (lookupA c.address facet.id = none →
      c.staticFacet facet = facet.combine [])
    ∧ (∀ a, lookupA c.address facet.id = some a →
      c.staticFacet facet = c.staticValues.getD (a / 2) .undefined) := by
  constructor
  · intro h
    simp [Configuration.staticFacet, h, FacetData.default]
  · intro a h
    simp [Configuration.staticFacet, h]

/-- Claim C10 witness: an addressed facet reads its static cell, an
unaddressed one falls back to `combine([])` (= `4` for keep-last). -/
theorem c10_witness :
    c10Conf.staticFacet tabFacet = .num 8
    ∧ c10Conf.staticFacet dynFacet = .num 4 :=
  ⟨(c10_staticFacet_default_or_stored c10Conf tabFacet).2 1 rfl,
   (c10_staticFacet_default_or_stored c10Conf dynFacet).1 rfl⟩

/-- Binding an `Except.ok` result is transparent (do-notation reduction
helper shared by the slot-update proofs). -/
theorem bindOk (a : α) (f : α → Except ε β) : (Except.ok a >>= f) = f a := rfl

/-- Claim C3: a facet-provider slot always recomputes the projection and
reports changed when there is no predecessor or the transition
reconfigures; on a non-reconfiguring transition it recomputes only when a
symbolic dependency fired (`doc` on `docChanged`, `selection` on
`docChanged` or `selectionSet`) or the short-circuiting scan of the dynamic
dependency addresses reports a change — otherwise it reports unchanged
without consulting the projection (the result is the same for every
projection `g2`); on recompute, `compareInput` against the start snapshot's
value at the same index decides between discarding (unchanged) and storing
(changed). -/
theorem c3_provider_slot_update (slots : List SlotDesc) (g : SnapState → Val)
    (cmp : Val → Val → Bool) (idx : Nat) (depDoc depSel : Bool)
    (depAddrs : List Nat) (st : SnapState) (fuel : Nat) :
    (eval slots none (fuel + 1) (.runSlot st (.provider g cmp idx depDoc depSel depAddrs)) =
      .ok (writeValue st idx (g st), SlotStatus.Changed))
    ∧ (∀ tr : TrModel, tr.reconfigured = true →
      eval slots (some tr) (fuel + 1) (.runSlot st (.provider g cmp idx depDoc depSel depAddrs)) =
        .ok (writeValue st idx (g st), SlotStatus.Changed))
    ∧ (∀ tr : TrModel, tr.reconfigured = false →
      ((depDoc && tr.docChanged) || (depSel && (tr.docChanged || tr.selectionSet))) = true →
      eval slots (some tr) (fuel + 1) (.runSlot st (.provider g cmp idx depDoc depSel depAddrs)) =
        (if cmp (g st) (tr.startState.values.getD idx .undefined) then .ok (st, 0)
         else .ok (writeValue st idx (g st), SlotStatus.Changed)))
    ∧ (∀ tr st1, tr.reconfigured = false →
      ((depDoc && tr.docChanged) || (depSel && (tr.docChanged || tr.selectionSet))) = false →
      eval slots (some tr) fuel (.deps st depAddrs) = .ok (st1, 0) →
      ∀ g2 : SnapState → Val,
        eval slots (some tr) (fuel + 1)
          (.runSlot st (.provider g2 cmp idx depDoc depSel depAddrs)) = .ok (st1, 0))
    ∧ (∀ tr st1, tr.reconfigured = false →
      ((depDoc && tr.docChanged) || (depSel && (tr.docChanged || tr.selectionSet))) = false →
      eval slots (some tr) fuel (.deps st depAddrs) = .ok (st1, 1) →
      eval slots (some tr) (fuel + 1) (.runSlot st (.provider g cmp idx depDoc depSel depAddrs)) =
        (if cmp (g st1) (tr.startState.values.getD idx .undefined) then .ok (st1, 0)
         else .ok (writeValue st1 idx (g st1), SlotStatus.Changed))) := by
  refine ⟨?_, fun tr hr => ?_, fun tr hr hsym => ?_,
    fun tr st1 hr hsym hdeps g2 => ?_, fun tr st1 hr hsym hdeps => ?_⟩
  · simp [eval]
  · simp [eval, hr]
  · simp only [eval, hr]
    rw [hsym]
    rfl
  · simp only [eval, hr]
    rw [hsym]
    simp only [Bool.false_eq_true, if_false, hdeps, bindOk]
    rfl
  · simp only [eval, hr]
    rw [hsym]
    simp only [Bool.false_eq_true, if_false, hdeps, bindOk]
    rfl

/-- Claim C3 witness: a reconfiguring transition always recomputes and
reports changed. -/
theorem c3_witness :
    eval [] (some recTr) 1 (.runSlot gatherSt (.provider g5 cmpEq 0 false false [])) =
      .ok (writeValue gatherSt 0 (g5 gatherSt), SlotStatus.Changed) :=
  (c3_provider_slot_update [] g5 cmpEq 0 false false [] gatherSt 0).2.1 recTr rfl

/-- Claim C4: a facet-combine slot on a non-reconfiguring transition
force-evaluates every dynamic member address; when none reports changed it
reports unchanged without calling `combine` (the result is the same for
every combine `cf2`); when some member changed — or unconditionally on
first build — the member values are gathered in group order with Multi
providers spliced element-wise, `combine` is applied, and `compare` against
the old combined value (the start snapshot's cell at the same address)
decides between discarding (unchanged) and storing (changed); on first
build the result is always stored and changed.  The gather step on a Multi
member yielding `[1,2]` before a Single member yielding `3` produces the
combine input `[1,2,3]`. -/
theorem c4_combine_slot_update (slots : List SlotDesc) (cf : List Val → Val)
    (cp : Val → Val → Bool) (facetId idx : Nat) (pAddrs : List Nat)
    (pTypes : List Provider) (dyn : List Nat) (st : SnapState) (fuel : Nat) :
    (∀ tr st1, tr.reconfigured = false →
      eval slots (some tr) fuel (.allChanged st dyn false) = .ok (st1, 0) →
      ∀ cf2 : List Val → Val,
        eval slots (some tr) (fuel + 1)
          (.runSlot st (.combineSlot cf2 cp facetId idx pAddrs pTypes dyn)) = .ok (st1, 0))
    ∧ (∀ tr st1 vals, tr.reconfigured = false →
      eval slots (some tr) fuel (.allChanged st dyn false) = .ok (st1, 1) →
      gatherValues st1 pAddrs pTypes = .ok vals →
      eval slots (some tr) (fuel + 1)
        (.runSlot st (.combineSlot cf cp facetId idx pAddrs pTypes dyn)) =
        (if cp (cf vals) (getAddr tr.startState (idx * 2)) then .ok (st1, 0)
         else .ok (writeValue st1 idx (cf vals), SlotStatus.Changed)))
    ∧ (∀ st1 c vals,
      eval slots none fuel (.allChanged st dyn false) = .ok (st1, c) →
      gatherValues st1 pAddrs pTypes = .ok vals →
      eval slots none (fuel + 1)
        (.runSlot st (.combineSlot cf cp facetId idx pAddrs pTypes dyn)) =
        .ok (writeValue st1 idx (cf vals), SlotStatus.Changed))
    ∧ (gatherValues gatherSt [0, 2] [.multi, .single] = .ok [.num 1, .num 2, .num 3]) := by
  refine ⟨fun tr st1 hr hall cf2 => ?_, fun tr st1 vals hr hall hgather => ?_,
    fun st1 c vals hall hgather => ?_, by rfl⟩
  · simp only [eval, hr, Bool.false_eq_true, if_false, hall, bindOk]
    rfl
  · simp only [eval, hr, Bool.false_eq_true, if_false, hall, bindOk]
    simp only [hgather, bindOk]
    rfl
  · simp only [eval, hall, bindOk]
    simp only [hgather, bindOk]
    rfl

/-- Claim C4 witness: with no dynamic member changed, the combine slot
reports unchanged. -/
theorem c4_witness :
    eval [] (some plainTr) 2
      (.runSlot gatherSt (.combineSlot keepLast cmpEq 6 0 [] [] [])) =
      .ok (gatherSt, 0) :=
  (c4_combine_slot_update [] keepLast cmpEq 6 0 [] [] [] gatherSt 1).1 plainTr gatherSt rfl rfl keepLast

/-- Claim C6: a facet group whose providers are all Static resolves to
`combine` of the provider values in group (flatten) order, stored at a
fresh static (odd) address; when a previous snapshot's configuration has an
address for the facet and the facet's `compare` accepts the new value
against the old one, the old value itself is stored (referential stability
across reconfiguration), otherwise the new combined value is stored; in the
keep-last `Tabsize` scenario, `[Tabsize(2), Tabsize(8)]` resolves
end-to-end to `8`. -/
theorem c6_static_group_resolution (p : FacetProvider) (ps : List FacetProvider)
    (acc : ResolveAcc) :
    ((p :: ps).all (fun q => q.type == Provider.static) = true →
      (resolveGroup none acc (p :: ps)).staticValues =
        acc.staticValues ++ [p.facet.combine ((p :: ps).map (fun q => q.value.asVal))]
      ∧ (resolveGroup none acc (p :: ps)).address =
        acc.address ++ [(p.facet.id, acc.staticValues.length * 2 + 1)])
    ∧ (∀ os oldAddr, (p :: ps).all (fun q => q.type == Provider.static) = true →
      lookupA os.address p.facet.id = some oldAddr →
      p.facet.compare (p.facet.combine ((p :: ps).map (fun q => q.value.asVal)))
        (getAddr os oldAddr) = true →
      (resolveGroup (some os) acc (p :: ps)).staticValues =
        acc.staticValues ++ [getAddr os oldAddr])
    ∧ (∀ os oldAddr, (p :: ps).all (fun q => q.type == Provider.static) = true →
      lookupA os.address p.facet.id = some oldAddr →
      p.facet.compare (p.facet.combine ((p :: ps).map (fun q => q.value.asVal)))
        (getAddr os oldAddr) = false →
      (resolveGroup (some os) acc (p :: ps)).staticValues =
        acc.staticValues ++ [p.facet.combine ((p :: ps).map (fun q => q.value.asVal))])
    ∧ ((Configuration.resolve tabExt none).staticFacet tabFacet = .num 8) := by
  refine ⟨fun hall => ?_, fun os oldAddr hall hlook hcmp => ?_,
    fun os oldAddr hall hlook hcmp => ?_, by rfl⟩
  · simp [resolveGroup, hall]
  · unfold resolveGroup
    rw [hall]
    simp only [if_true, hlook, hcmp]
  · unfold resolveGroup
    rw [hall]
    simp only [if_true, hlook, hcmp]
    simp

/-- Claim C6 witness: reconfiguring to `[Tabsize(8)]` with an old snapshot
already holding `8` keeps the old value object. -/
theorem c6_witness :
    (resolveGroup (some tabOldState) ⟨[], [], []⟩ [tabProv8]).staticValues =
      [getAddr tabOldState 1] :=
  (c6_static_group_resolution tabProv8 [] ⟨[], [], []⟩).2.1 tabOldState 1 rfl rfl rfl

/-! ## Flattening lemmas -/

theorem tier_nil (p : Nat) : tier [] p = [] := rfl

theorem tier_append (l1 l2 : List (Leaf × Nat)) (p : Nat) :
    tier (l1 ++ l2) p = tier l1 p ++ tier l2 p := by
  simp [tier]

theorem pushBucket_eq_tier (res : Buckets) (prc : Nat) (leaf : Leaf) :
    pushBucket res prc leaf =
      ⟨res.b0 ++ tier [(leaf, prc)] 0, res.b1 ++ tier [(leaf, prc)] 1,
       res.b2 ++ tier [(leaf, prc)] 2, res.b3 ++ tier [(leaf, prc)] 3⟩ := by
  match prc with
  | 0 => simp [pushBucket, tier]
  | 1 => simp [pushBucket, tier]
  | 2 => simp [pushBucket, tier]
  | 3 => simp [pushBucket, tier]
  | n + 4 => simp [pushBucket, tier]

/-- The flattening walk produces, in each bucket, exactly the
corresponding tier of the spec's pre-order leaf enumeration, appended to
what the bucket already held. -/
theorem flattenInner_eq_spec : (e : Extension) → (prc : Nat) → (seen : Nat → Bool) →
    (res : Buckets) →
    flattenInner e prc seen res =
      ((specLeavesPreorder e prc seen).1,
       ⟨res.b0 ++ tier (specLeavesPreorder e prc seen).2 0,
        res.b1 ++ tier (specLeavesPreorder e prc seen).2 1,
        res.b2 ++ tier (specLeavesPreorder e prc seen).2 2,
        res.b3 ++ tier (specLeavesPreorder e prc seen).2 3⟩)
  | .provider t p, prc, seen, res => by
      rw [flattenInner.eq_def, specLeavesPreorder.eq_def]
      by_cases h : seen t
      · simp [Extension.tag, h, tier]
      · simp only [Extension.tag, h, if_false, Bool.false_eq_true]
        rw [pushBucket_eq_tier]
  | .field t f facets, prc, seen, res => by
      rw [flattenInner.eq_def, specLeavesPreorder.eq_def]
      by_cases h : seen t
      · simp [Extension.tag, h, tier]
      · simp only [Extension.tag, h, if_false, Bool.false_eq_true]
        rw [flattenInner_eq_spec facets prc _ (pushBucket res prc (.field f))]
        rw [pushBucket_eq_tier]
        have hc : ∀ i rest, tier [((Leaf.field f), prc)] i ++ tier rest i =
            tier (((Leaf.field f), prc) :: rest) i := by
          intro i rest
          rw [show ((Leaf.field f, prc) :: rest) = [(Leaf.field f, prc)] ++ rest from rfl,
            tier_append]
        simp only [List.append_assoc, hc]
  | .seq t es, prc, seen, res => by
      rw [flattenInner.eq_def, specLeavesPreorder.eq_def]
      by_cases h : seen t
      · simp [Extension.tag, h, tier]
      · simp only [Extension.tag, h, if_false, Bool.false_eq_true]
        exact golist es prc _ res
  | .prec t q inner, prc, seen, res => by
      rw [flattenInner.eq_def, specLeavesPreorder.eq_def]
      by_cases h : seen t
      · simp [Extension.tag, h, tier]
      · simp only [Extension.tag, h, if_false, Bool.false_eq_true]
        exact flattenInner_eq_spec inner q _ res
where golist : (es : List Extension) → (prc : Nat) → (seen : Nat → Bool) → (res : Buckets) →
    flattenInner.go es prc seen res =
      ((specLeavesPreorder.go es prc seen).1,
       ⟨res.b0 ++ tier (specLeavesPreorder.go es prc seen).2 0,
        res.b1 ++ tier (specLeavesPreorder.go es prc seen).2 1,
        res.b2 ++ tier (specLeavesPreorder.go es prc seen).2 2,
        res.b3 ++ tier (specLeavesPreorder.go es prc seen).2 3⟩)
  | [], prc, seen, res => by
      simp [flattenInner.go, specLeavesPreorder.go, tier]
  | e :: es, prc, seen, res => by
      simp only [flattenInner.go, specLeavesPreorder.go]
      rw [flattenInner_eq_spec e prc seen res]
      rw [golist es prc _ _]
      simp only [tier_append, List.append_assoc]

theorem flattenInner_provider (tg : Nat) (p : FacetProvider) (prc : Nat)
    (seen : Nat → Bool) (res : Buckets) :
    flattenInner (.provider tg p) prc seen res =
      if seen tg then (seen, res)
      else (fun x => x == tg || seen x, pushBucket res prc (.provider p)) := rfl

theorem flattenInner_field (tg : Nat) (f : StateField) (facets : Extension) (prc : Nat)
    (seen : Nat → Bool) (res : Buckets) :
    flattenInner (.field tg f facets) prc seen res =
      if seen tg then (seen, res)
      else flattenInner facets prc (fun x => x == tg || seen x)
        (pushBucket res prc (.field f)) := rfl

theorem flattenInner_seq (tg : Nat) (es : List Extension) (prc : Nat)
    (seen : Nat → Bool) (res : Buckets) :
    flattenInner (.seq tg es) prc seen res =
      if seen tg then (seen, res)
      else flattenInner.go es prc (fun x => x == tg || seen x) res := rfl

theorem flattenInner_prec (tg q : Nat) (inner : Extension) (prc : Nat)
    (seen : Nat → Bool) (res : Buckets) :
    flattenInner (.prec tg q inner) prc seen res =
      if seen tg then (seen, res)
      else flattenInner inner q (fun x => x == tg || seen x) res := rfl

theorem flattenGo_nil (prc : Nat) (seen : Nat → Bool) (res : Buckets) :
    flattenInner.go [] prc seen res = (seen, res) := rfl

theorem flattenGo_cons (e : Extension) (es : List Extension) (prc : Nat)
    (seen : Nat → Bool) (res : Buckets) :
    flattenInner.go (e :: es) prc seen res =
      flattenInner.go es prc (flattenInner e prc seen res).1
        (flattenInner e prc seen res).2 := rfl

theorem flattenGo_append : (xs ys : List Extension) → (prc : Nat) →
    (seen : Nat → Bool) → (res : Buckets) →
    flattenInner.go (xs ++ ys) prc seen res =
      flattenInner.go ys prc (flattenInner.go xs prc seen res).1
        (flattenInner.go xs prc seen res).2
  | [], ys, prc, seen, res => rfl
  | x :: xs, ys, prc, seen, res => by
      rw [List.cons_append, flattenGo_cons, flattenGo_cons]
      exact flattenGo_append xs ys prc _ _

theorem tagsGo_cons (e : Extension) (es : List Extension) :
    Extension.tags.go (e :: es) = e.tags ++ Extension.tags.go es := rfl

theorem tagsGo_append : (xs ys : List Extension) →
    Extension.tags.go (xs ++ ys) = Extension.tags.go xs ++ Extension.tags.go ys
  | [], ys => rfl
  | x :: xs, ys => by
      rw [List.cons_append, tagsGo_cons, tagsGo_cons, tagsGo_append xs ys,
        List.append_assoc]

theorem tag_mem_tags (e : Extension) : e.tag ∈ e.tags := by
  cases e <;> simp [Extension.tag, Extension.tags]

theorem orShuffle (a b c : Bool) : ((a || b) || c) = (b || (a || c)) := by
  cases a <;> cases b <;> cases c <;> rfl

/-- A node whose identity has been seen is a no-op for the walk. -/
theorem flattenInner_skip (e : Extension) (prc : Nat) (seen : Nat → Bool) (res : Buckets)
    (h : seen e.tag = true) : flattenInner e prc seen res = (seen, res) := by
  cases e <;> simp_all [flattenInner_provider, flattenInner_field, flattenInner_seq,
    flattenInner_prec, Extension.tag]

/-- The walk never unsees an identity. -/
theorem flattenInner_mono : (e : Extension) → (prc : Nat) → (seen : Nat → Bool) →
    (res : Buckets) → (t : Nat) → seen t = true → (flattenInner e prc seen res).1 t = true
  | .provider tg p, prc, seen, res, t, h => by
      rw [flattenInner_provider]
      split
      · exact h
      · simp [h]
  | .field tg f facets, prc, seen, res, t, h => by
      rw [flattenInner_field]
      split
      · exact h
      · exact flattenInner_mono facets prc _ _ t (by simp [h])
  | .seq tg es, prc, seen, res, t, h => by
      rw [flattenInner_seq]
      split
      · exact h
      · exact golist es prc _ res t (by simp [h])
  | .prec tg q inner, prc, seen, res, t, h => by
      rw [flattenInner_prec]
      split
      · exact h
      · exact flattenInner_mono inner q _ res t (by simp [h])
where golist : (es : List Extension) → (prc : Nat) → (seen : Nat → Bool) → (res : Buckets) →
    (t : Nat) → seen t = true → (flattenInner.go es prc seen res).1 t = true
  | [], _, _, _, _, h => h
  | e :: es, prc, seen, res, t, h => by
      rw [flattenGo_cons]
      exact golist es prc _ _ t (flattenInner_mono e prc seen res t h)

/-- After visiting a node, its identity is seen. -/
theorem flattenInner_adds_tag (e : Extension) (prc : Nat) (seen : Nat → Bool)
    (res : Buckets) : (flattenInner e prc seen res).1 e.tag = true := by
  cases e with
  | provider tg p =>
      simp only [Extension.tag]
      rw [flattenInner_provider]
      split
      · next h => exact h
      · simp
  | field tg f facets =>
      simp only [Extension.tag]
      rw [flattenInner_field]
      split
      · next h => exact h
      · exact flattenInner_mono facets prc _ _ tg (by simp)
  | seq tg es =>
      simp only [Extension.tag]
      rw [flattenInner_seq]
      split
      · next h => exact h
      · exact flattenInner_mono.golist es prc _ _ tg (by simp)
  | prec tg q inner =>
      simp only [Extension.tag]
      rw [flattenInner_prec]
      split
      · next h => exact h
      · exact flattenInner_mono inner q _ _ tg (by simp)

/-- Walks from two seen-sets that agree on every identity of the tree
produce the same buckets and newly see the same identities. -/
theorem flattenInner_inv : (e : Extension) → (prc : Nat) → (s1 s2 : Nat → Bool) →
    (res : Buckets) → (∀ t, t ∈ e.tags → s1 t = s2 t) →
    ∃ N : Nat → Bool,
      (flattenInner e prc s1 res).2 = (flattenInner e prc s2 res).2 ∧
      (∀ t, (flattenInner e prc s1 res).1 t = (s1 t || N t)) ∧
      (∀ t, (flattenInner e prc s2 res).1 t = (s2 t || N t))
  | .provider tg p, prc, s1, s2, res, h => by
      have htag : s1 tg = s2 tg := h tg (tag_mem_tags (.provider tg p))
      rw [flattenInner_provider, flattenInner_provider]
      by_cases hs : s1 tg = true
      · rw [if_pos hs, if_pos (htag ▸ hs)]
        exact ⟨fun _ => false, rfl, fun t => by simp, fun t => by simp⟩
      · rw [if_neg hs, if_neg (fun hh => hs (htag.trans hh))]
        exact ⟨fun x => x == tg, rfl, fun t => by simp [Bool.or_comm],
          fun t => by simp [Bool.or_comm]⟩
  | .field tg f facets, prc, s1, s2, res, h => by
      have htag : s1 tg = s2 tg := h tg (tag_mem_tags (.field tg f facets))
      rw [flattenInner_field, flattenInner_field]
      by_cases hs : s1 tg = true
      · rw [if_pos hs, if_pos (htag ▸ hs)]
        exact ⟨fun _ => false, rfl, fun t => by simp, fun t => by simp⟩
      · rw [if_neg hs, if_neg (fun hh => hs (htag.trans hh))]
        obtain ⟨N, hb, h1, h2⟩ := flattenInner_inv facets prc
          (fun x => x == tg || s1 x) (fun x => x == tg || s2 x)
          (pushBucket res prc (.field f))
          (fun t ht => by
            by_cases he : t = tg
            · subst he; simp [htag]
            · have hag := h t (by simp [Extension.tags]; exact Or.inr ht)
              simp [hag])
        exact ⟨fun x => x == tg || N x, hb,
          fun t => by rw [h1 t]; exact orShuffle _ _ _,
          fun t => by rw [h2 t]; exact orShuffle _ _ _⟩
  | .seq tg es, prc, s1, s2, res, h => by
      have htag : s1 tg = s2 tg := h tg (tag_mem_tags (.seq tg es))
      rw [flattenInner_seq, flattenInner_seq]
      by_cases hs : s1 tg = true
      · rw [if_pos hs, if_pos (htag ▸ hs)]
        exact ⟨fun _ => false, rfl, fun t => by simp, fun t => by simp⟩
      · rw [if_neg hs, if_neg (fun hh => hs (htag.trans hh))]
        obtain ⟨N, hb, h1, h2⟩ := golist es prc
          (fun x => x == tg || s1 x) (fun x => x == tg || s2 x) res
          (fun t ht => by
            by_cases he : t = tg
            · subst he; simp [htag]
            · have hag := h t (by simp [Extension.tags]; exact Or.inr ht)
              simp [hag])
        exact ⟨fun x => x == tg || N x, hb,
          fun t => by rw [h1 t]; exact orShuffle _ _ _,
          fun t => by rw [h2 t]; exact orShuffle _ _ _⟩
  | .prec tg q inner, prc, s1, s2, res, h => by
      have htag : s1 tg = s2 tg := h tg (tag_mem_tags (.prec tg q inner))
      rw [flattenInner_prec, flattenInner_prec]
      by_cases hs : s1 tg = true
      · rw [if_pos hs, if_pos (htag ▸ hs)]
        exact ⟨fun _ => false, rfl, fun t => by simp, fun t => by simp⟩
      · rw [if_neg hs, if_neg (fun hh => hs (htag.trans hh))]
        obtain ⟨N, hb, h1, h2⟩ := flattenInner_inv inner q
          (fun x => x == tg || s1 x) (fun x => x == tg || s2 x) res
          (fun t ht => by
            by_cases he : t = tg
            · subst he; simp [htag]
            · have hag := h t (by simp [Extension.tags]; exact Or.inr ht)
              simp [hag])
        exact ⟨fun x => x == tg || N x, hb,
          fun t => by rw [h1 t]; exact orShuffle _ _ _,
          fun t => by rw [h2 t]; exact orShuffle _ _ _⟩
where golist : (es : List Extension) → (prc : Nat) → (s1 s2 : Nat → Bool) →
    (res : Buckets) → (∀ t, t ∈ Extension.tags.go es → s1 t = s2 t) →
    ∃ N : Nat → Bool,
      (flattenInner.go es prc s1 res).2 = (flattenInner.go es prc s2 res).2 ∧
      (∀ t, (flattenInner.go es prc s1 res).1 t = (s1 t || N t)) ∧
      (∀ t, (flattenInner.go es prc s2 res).1 t = (s2 t || N t))
  | [], prc, s1, s2, res, h =>
      ⟨fun _ => false, rfl, fun t => by simp [flattenGo_nil],
        fun t => by simp [flattenGo_nil]⟩
  | e :: es, prc, s1, s2, res, h => by
      obtain ⟨N1, hb1, h11, h12⟩ := flattenInner_inv e prc s1 s2 res
        (fun t ht => h t (by rw [tagsGo_cons]; exact List.mem_append_left _ ht))
      obtain ⟨N2, hb2, h21, h22⟩ := golist es prc
        (flattenInner e prc s1 res).1 (flattenInner e prc s2 res).1
        (flattenInner e prc s1 res).2
        (fun t ht => by
          rw [h11 t, h12 t, h t (by rw [tagsGo_cons]; exact List.mem_append_right _ ht)])
      rw [flattenGo_cons, flattenGo_cons, ← hb1]
      exact ⟨fun x => N1 x || N2 x, hb2,
        fun t => by rw [h21 t, h11 t]; exact Bool.or_assoc _ _ _,
        fun t => by rw [h22 t, h12 t]; exact Bool.or_assoc _ _ _⟩

/-- Dedup core: from two fresh seen-sets, walking the member list with a
duplicated element produces the same buckets as walking it with the
duplicate dropped — the first visit marks the identity seen, the walk never
unsees it, and the second visit is a no-op. -/
theorem c8core (e : Extension) (es es2 : List Extension) (prc : Nat)
    (s1 s2 : Nat → Bool) (res : Buckets)
    (hf1 : ∀ x, x ∈ Extension.tags.go (e :: (es ++ es2)) → s1 x = false)
    (hf2 : ∀ x, x ∈ Extension.tags.go (e :: (es ++ es2)) → s2 x = false) :
    (flattenInner.go (e :: (es ++ e :: es2)) prc s1 res).2 =
      (flattenInner.go (e :: (es ++ es2)) prc s2 res).2 := by
  have hmemE : ∀ x, x ∈ e.tags → x ∈ Extension.tags.go (e :: (es ++ es2)) := by
    intro x hx
    rw [tagsGo_cons]
    exact List.mem_append_left _ hx
  have hmemES : ∀ x, x ∈ Extension.tags.go es →
      x ∈ Extension.tags.go (e :: (es ++ es2)) := by
    intro x hx
    rw [tagsGo_cons, tagsGo_append]
    exact List.mem_append_right _ (List.mem_append_left _ hx)
  have hmemES2 : ∀ x, x ∈ Extension.tags.go es2 →
      x ∈ Extension.tags.go (e :: (es ++ es2)) := by
    intro x hx
    rw [tagsGo_cons, tagsGo_append]
    exact List.mem_append_right _ (List.mem_append_right _ hx)
  obtain ⟨N1, hb1, h11, h12⟩ := flattenInner_inv e prc s1 s2 res
    (fun t ht => by rw [hf1 t (hmemE t ht), hf2 t (hmemE t ht)])
  rw [flattenGo_cons, flattenGo_cons, ← hb1]
  rw [flattenGo_append, flattenGo_append]
  obtain ⟨N2, hb2, h21, h22⟩ := flattenInner_inv.golist es prc
    (flattenInner e prc s1 res).1 (flattenInner e prc s2 res).1
    (flattenInner e prc s1 res).2
    (fun t ht => by
      rw [h11 t, h12 t, hf1 t (hmemES t ht), hf2 t (hmemES t ht)])
  have htagB : (flattenInner.go es prc (flattenInner e prc s1 res).1
      (flattenInner e prc s1 res).2).1 e.tag = true :=
    flattenInner_mono.golist es prc _ _ _ (flattenInner_adds_tag e prc s1 res)
  rw [flattenGo_cons, flattenInner_skip e prc _ _ htagB]
  rw [← hb2]
  obtain ⟨N3, hb3, h31, h32⟩ := flattenInner_inv.golist es2 prc
    (flattenInner.go es prc (flattenInner e prc s1 res).1
      (flattenInner e prc s1 res).2).1
    (flattenInner.go es prc (flattenInner e prc s2 res).1
      (flattenInner e prc s1 res).2).1
    (flattenInner.go es prc (flattenInner e prc s1 res).1
      (flattenInner e prc s1 res).2).2
    (fun t ht => by
      rw [h21 t, h22 t, h11 t, h12 t, hf1 t (hmemES2 t ht), hf2 t (hmemES2 t ht)])
  exact hb3

/-- Claim C7: flattening produces exactly the four-tier bucketing of the
spec's deduplicated depth-first pre-order leaf enumeration — each leaf
carries the effective tier set by the innermost enclosing precedence tag
(the ambient Default tier otherwise) — concatenated Override, Extend,
Default, Fallback; in particular leaves L1(Fallback), L2(Override),
L3(untagged) in that source order flatten to [L2, L3, L1]. -/
theorem c7_flatten_precedence_order :
    (∀ e : Extension, flatten e =
      tier (specLeavesPreorder e Precedence.Default (fun _ => false)).2 Precedence.Override ++
      tier (specLeavesPreorder e Precedence.Default (fun _ => false)).2 Precedence.Extend ++
      tier (specLeavesPreorder e Precedence.Default (fun _ => false)).2 Precedence.Default ++
      tier (specLeavesPreorder e Precedence.Default (fun _ => false)).2 Precedence.Fallback)
    ∧ flatten c7Ext = [.provider provB, .provider provC, .provider provA] := by
  constructor
  · intro e
    simp only [flatten]
    rw [flattenInner_eq_spec e Precedence.Default (fun _ => false) ⟨[], [], [], []⟩]
    simp [Precedence.Override, Precedence.Extend, Precedence.Default, Precedence.Fallback]
  · rfl

/-- Claim C8: an extension instance occurring a second time (same identity)
contributes nothing — flattening the sequence with the duplicate occurrence
equals flattening it with only the first occurrence, whatever sits between
and after them, provided the two wrapping sequence nodes are fresh
identities. -/
theorem c8_flatten_dedup (e : Extension) (es es2 : List Extension) (t1 t2 : Nat)
    (h1 : t1 ∉ Extension.tags.go (e :: (es ++ es2)))
    (h2 : t2 ∉ Extension.tags.go (e :: (es ++ es2))) :
    flatten (.seq t1 (e :: (es ++ e :: es2))) =
      flatten (.seq t2 (e :: (es ++ es2))) := by
  have hf1 : ∀ x, x ∈ Extension.tags.go (e :: (es ++ es2)) →
      ((x == t1 || (fun _ : Nat => false) x)) = false := by
    intro x hx
    have hne : x ≠ t1 := fun hh => h1 (hh ▸ hx)
    simp [hne]
  have hf2 : ∀ x, x ∈ Extension.tags.go (e :: (es ++ es2)) →
      ((x == t2 || (fun _ : Nat => false) x)) = false := by
    intro x hx
    have hne : x ≠ t2 := fun hh => h2 (hh ▸ hx)
    simp [hne]
  have hMain : (flattenInner (.seq t1 (e :: (es ++ e :: es2)))
        Precedence.Default (fun _ => false) ⟨[], [], [], []⟩).2 =
      (flattenInner (.seq t2 (e :: (es ++ es2)))
        Precedence.Default (fun _ => false) ⟨[], [], [], []⟩).2 := by
    rw [flattenInner_seq, flattenInner_seq, if_neg (by simp), if_neg (by simp)]
    exact c8core e es es2 Precedence.Default _ _ _ hf1 hf2
  simp only [flatten]
  rw [hMain]

/-- Claim C8 witness: composing the instance `c8E` twice flattens exactly
like composing it once. -/
theorem c8_witness :
    flatten (.seq 60 [c8E, c8F, c8E]) = flatten (.seq 61 [c8E, c8F]) :=
  c8_flatten_dedup c8E [c8F] [] 60 61 (by decide) (by decide)
